import Mathlib

/-!
Shallow embedding of `generate_tfplan_summary.py` (Terraform plan summary
generator): JSON values, the dict/lookup primitives the script uses, the
renderer helpers `gen_resource_changes` / `gen_resource_property_changes`,
and the orchestrator `summarize_changes`, together with theorems checking
the specification's claims about them.
-/

set_option maxRecDepth 8192

namespace TfPlan

/-- A decoded JSON tree, as handed to `summarize_changes` by `json.load`.
Objects keep insertion order (Python dicts are insertion ordered). -/
inductive JValue where
  | null
  | bool (b : Bool)
  | num (n : Int)
  | str (s : String)
  | arr (elems : List JValue)
  | obj (fields : List (String × JValue))

/-- Python errors the script can raise (modelled): `KeyError(k)` from
`d[k]` on a missing key, `TypeError`/`AttributeError` from using a
non-mapping where a mapping is required. -/
inductive PyErr where
  | keyError (k : String)
  | typeError
  | attributeError
  deriving DecidableEq, Repr

mutual

/-- Python `==` on decoded JSON values, structurally (the script compares
property values with `!=`; on the scalar and string values the claims
exercise this coincides with Python equality). -/
def JValue.beq : JValue → JValue → Bool
  | .null, .null => true
  | .bool x, .bool y => x == y
  | .num x, .num y => x == y
  | .str x, .str y => x == y
  | .arr xs, .arr ys => JValue.beqList xs ys
  | .obj fs, .obj gs => JValue.beqFields fs gs
  | _, _ => false

/-- Elementwise equality of JSON lists. -/
def JValue.beqList : List JValue → List JValue → Bool
  | [], [] => true
  | x :: xs, y :: ys => JValue.beq x y && JValue.beqList xs ys
  | _, _ => false

/-- Entrywise equality of JSON objects. -/
def JValue.beqFields : List (String × JValue) → List (String × JValue) → Bool
  | [], [] => true
  | (k, v) :: fs, (l, w) :: gs => k == l && JValue.beq v w && JValue.beqFields fs gs
  | _, _ => false

end

mutual

/-- `beq` is reflexive. -/
theorem JValue.beq_refl : ∀ a : JValue, JValue.beq a a = true
  | .null => rfl
  | .bool x => by simp [JValue.beq]
  | .num x => by simp [JValue.beq]
  | .str x => by simp [JValue.beq]
  | .arr xs => by simp only [JValue.beq]; exact JValue.beqList_refl xs
  | .obj fs => by simp only [JValue.beq]; exact JValue.beqFields_refl fs

/-- `beqList` is reflexive. -/
theorem JValue.beqList_refl : ∀ xs : List JValue, JValue.beqList xs xs = true
  | [] => rfl
  | x :: xs => by
    simp only [JValue.beqList, Bool.and_eq_true]
    exact ⟨JValue.beq_refl x, JValue.beqList_refl xs⟩

/-- `beqFields` is reflexive. -/
theorem JValue.beqFields_refl : ∀ fs : List (String × JValue), JValue.beqFields fs fs = true
  | [] => rfl
  | (k, v) :: fs => by
    simp only [JValue.beqFields, Bool.and_eq_true]
    exact ⟨⟨by simp, JValue.beq_refl v⟩, JValue.beqFields_refl fs⟩

end

/-- First-match association-list lookup: Python `d[k]` / `d.get(k)`
restricted to string keys (dict keys are unique in Python, so first
match is the match). -/
def alistLookup : List (String × JValue) → String → Option JValue
  | [], _ => none
  | (k, v) :: rest, key => if k = key then some v else alistLookup rest key

/-- Python `d[key]`: value on success, `KeyError(key)` when absent,
`TypeError` when subscripting a non-mapping with a string key. -/
def JValue.getItem : JValue → String → Except PyErr JValue
  | .obj fs, key =>
    match alistLookup fs key with
    | some v => .ok v
    | none => .error (.keyError key)
  | _, _ => .error .typeError

/-- Python `d.get(key, default)`: total on mappings, `AttributeError`
on anything else (no `.get` attribute). -/
def JValue.dictGet : JValue → String → JValue → Except PyErr JValue
  | .obj fs, key, dflt => .ok ((alistLookup fs key).getD dflt)
  | _, _, _ => .error .attributeError

/-- Python truthiness, as used by `change["change"].get("before", {}) or {}`. -/
def pyTruthy : JValue → Bool
  | .null => false
  | .bool b => b
  | .num n => n != 0
  | .str s => s != ""
  | .arr xs => !xs.isEmpty
  | .obj fs => !fs.isEmpty

/-- `x or {}`: keep `x` when truthy, else the empty dict. -/
def orEmpty (v : JValue) : JValue :=
  if pyTruthy v then v else .obj []

mutual

/-- Python `repr` of a decoded JSON value (the form used when a value is
nested inside a list or dict being stringified). -/
def pyRepr : JValue → String
  | .null => "None"
  | .bool true => "True"
  | .bool false => "False"
  | .num n => toString n
  | .str s => "'" ++ s ++ "'"
  | .arr xs => "[" ++ pyReprList xs ++ "]"
  | .obj fs => "\x7b" ++ pyReprFields fs ++ "\x7d"

/-- Comma-joined reprs of list elements. -/
def pyReprList : List JValue → String
  | [] => ""
  | [v] => pyRepr v
  | v :: vs => pyRepr v ++ ", " ++ pyReprList vs

/-- Comma-joined `'key': repr` pairs of dict entries. -/
def pyReprFields : List (String × JValue) → String
  | [] => ""
  | [(k, v)] => "'" ++ k ++ "': " ++ pyRepr v
  | (k, v) :: fs => "'" ++ k ++ "': " ++ pyRepr v ++ ", " ++ pyReprFields fs

end

/-- Python `str` of a value, as interpolated by the f-strings: a string
interpolates as itself, everything else as its repr. -/
def pyStr : JValue → String
  | .str s => s
  | v => pyRepr v

/-- `value = "null" if value is None else value` (lines 150, 159, 170-171,
184-185 of the script). -/
def normNull (v : JValue) : JValue :=
  match v with
  | .null => .str "null"
  | _ => v

/-- `HEADER[output_format]`: the script's `HEADER` dict, indexed; an
unknown format raises `KeyError`. -/
def HEADER (fmt : String) : Except PyErr String :=
  if fmt = "html" then
    .ok ("\n<!DOCTYPE html>\n<html lang=\"en\">\n<head>\n<meta charset=\"UTF-8\">\n<meta name=\"viewport\" content=\"width=device-width, initial-scale=1.0\">\n<title>Terraform Plan</title>\n<style>\nbody \x7b font-family: Arial, sans-serif; padding: 20px; background: #f9f9f9; \x7d\nh2 \x7b color: #333; \x7d\n.resource-block \x7b background: #fff; padding: 15px; margin: 10px 0; border-radius: 5px; box-shadow: 0 0 5px rgba(0,0,0,0.1); \x7d\n.diff-section \x7b display: flex; gap: 20px; \x7d\n// pre \x7b background: #eee; padding: 10px; overflow-x: auto; border-radius: 5px; max-width: 45vw; \x7d\ntable \x7b border-collapse: collapse; \x7d\nth, td \x7b border: 1px solid #ddd; text-align: left; \x7d\nth \x7b background-color: #f4f4f4; font-weight: bold; \x7d\ntr:nth-child(even) \x7b background-color: #f9f9f9; \x7d\n</style>\n</head>\n<body>\n<h1>Terraform Plan Summary</h1>\n<h2>Terraform Plan: List of Resource Property Changes</h2>\n")
  else if fmt = "markdown" then
    .ok "## Terraform Plan: List of Resource Changes\n\n"
  else .error (.keyError fmt)

/-- `FOOTER[output_format]`. -/
def FOOTER (fmt : String) : Except PyErr String :=
  if fmt = "html" then .ok "</body>\n</html>\n"
  else if fmt = "markdown" then .ok "\n\n"
  else .error (.keyError fmt)

/-- `gen_resource_changes(output_format, address, action, difflines)`:
one formatted resource block; returns the empty string for an unknown
format (the script's final `return ""`). -/
def gen_resource_changes (fmt address action difflines : String) : String :=
  if fmt = "html" then
    if difflines = "" then
      "\n<div class=\"resource-block\">\n<h3>Resource: " ++ address ++
      "</h3>\n<p><strong>Actions:</strong> " ++ action ++
      "</p>\n<div class=\"diff-section\">\n<p>No property changes detected.</p>\n</div>\n</div>\n"
    else
      "\n<div class=\"resource-block\">\n<h3>Resource: " ++ address ++
      "</h3>\n<p><strong>Actions:</strong> " ++ action ++
      "</p>\n<div class=\"diff-section\">\n<table>\n<thead><tr><th>Property</th><th>Before</th><th>After</th></tr></thead>\n<tbody>\n" ++
      difflines ++ "\n</tbody>\n</table>\n</div>\n</div>\n"
  else if fmt = "markdown" then
    if difflines = "" then
      "### Resource " ++ action ++ ": `" ++ address ++ "`\n\n" ++
      "No property changes detected.\n"
    else
      "### Resource " ++ action ++ ": `" ++ address ++ "`\n\n" ++
      "| Property | Before | After |\n" ++
      "| -------- | ------ | ----- |\n" ++
      difflines
  else ""

/-- `gen_resource_property_changes(output_format, action, key, before_value,
after_value)`: one diff row, `diff_formats[output_format][action]`; an
unknown format raises `KeyError(output_format)`, an unknown action
`KeyError(action)` (the latter is unreachable from the call sites). -/
def gen_resource_property_changes (fmt action key : String)
    (before_value after_value : JValue) : Except PyErr String :=
  if fmt = "html" then
    if action = "[CREATE]" then
      .ok ("<tr class=\"create\"><td><pre>" ++ key ++ "</pre></td><td>(New)</td><td>" ++
        pyStr after_value ++ "</td></tr>")
    else if action = "[DELETE]" then
      .ok ("<tr class=\"delete\"><td><pre>" ++ key ++ "</pre></td><td>" ++
        pyStr before_value ++ "</td><td>(Deleted)</td></tr>")
    else if action = "[UPDATE]" then
      .ok ("<tr class=\"update\"><td><pre>" ++ key ++ "</pre></td><td>" ++
        pyStr before_value ++ "</td><td>" ++ pyStr after_value ++ "</td></tr>")
    else if action = "[REPLACE]" then
      .ok ("<tr class=\"replace\"><td><pre>" ++ key ++ "</pre></td><td>" ++
        pyStr before_value ++ "</td><td>" ++ pyStr after_value ++ "</td></tr>")
    else .error (.keyError action)
  else if fmt = "markdown" then
    if action = "[CREATE]" then
      .ok ("| `" ++ key ++ "` | (New) | `" ++ pyStr after_value ++ "` |")
    else if action = "[DELETE]" then
      .ok ("| `" ++ key ++ "` | `" ++ pyStr before_value ++ "` | (Deleted) |")
    else if action = "[UPDATE]" then
      .ok ("| `" ++ key ++ "` | `" ++ pyStr before_value ++ "` | `" ++
        pyStr after_value ++ "` |")
    else if action = "[REPLACE]" then
      .ok ("| `" ++ key ++ "` | `" ++ pyStr before_value ++ "` | `" ++
        pyStr after_value ++ "` |")
    else .error (.keyError action)
  else .error (.keyError fmt)

/-- The `[CREATE]` loop (lines 149-155): one row per entry of `after`, in
insertion order, before-display hard-coded `(New)`, value null-normalized. -/
def createLoop (fmt : String) : List (String × JValue) → List String →
    Except PyErr (List String)
  | [], acc => .ok acc
  | (key, value) :: rest, acc =>
    match gen_resource_property_changes fmt "[CREATE]" key (.str "(New)") (normNull value) with
    | .ok row => createLoop fmt rest (acc ++ [row])
    | .error e => .error e

/-- The `[DELETE]` loop (lines 158-164): one row per entry of `before`,
in insertion order, after-display hard-coded `(Deleted)`. -/
def deleteLoop (fmt : String) : List (String × JValue) → List String →
    Except PyErr (List String)
  | [], acc => .ok acc
  | (key, value) :: rest, acc =>
    match gen_resource_property_changes fmt "[DELETE]" key (normNull value) (.str "(Deleted)") with
    | .ok row => deleteLoop fmt rest (acc ++ [row])
    | .error e => .error e

/-- The shared shape of the `[UPDATE]` (lines 167-177) and `[REPLACE]`
(lines 181-191) loops: for each key, look both values up with the given
defaults, null-normalize, and emit a row only when they differ. -/
def pairLoop (fmt action : String) (bdflt adflt : JValue) (before after : JValue) :
    List String → List String → Except PyErr (List String)
  | [], acc => .ok acc
  | key :: keys, acc =>
    match before.dictGet key bdflt, after.dictGet key adflt with
    | .ok bv, .ok av =>
      let bv := normNull bv
      let av := normNull av
      if JValue.beq bv av then pairLoop fmt action bdflt adflt before after keys acc
      else
        match gen_resource_property_changes fmt action key bv av with
        | .ok row => pairLoop fmt action bdflt adflt before after keys (acc ++ [row])
        | .error e => .error e
    | .error e, _ => .error e
    | _, .error e => .error e

/-- `sorted(all_keys)`: Python sorts strings lexicographically by code
point; modelled by insertion sort under `String`'s linear order. -/
def sortStrings (l : List String) : List String :=
  l.insertionSort (· ≤ ·)

/-- `after.items()` of the create branch. Iterating a non-mapping is
modelled as an error (the plans the claims quantify over always supply a
mapping, `null`, or nothing here, and `x or {}` has already replaced the
falsy values by `{}`). -/
def createDiffs (fmt : String) (after : JValue) : Except PyErr (List String) :=
  match after with
  | .obj afs => createLoop fmt afs []
  | _ => .error .attributeError

/-- `before.items()` of the delete branch; same modelling note as
`createDiffs`. -/
def deleteDiffs (fmt : String) (before : JValue) : Except PyErr (List String) :=
  match before with
  | .obj bfs => deleteLoop fmt bfs []
  | _ => .error .attributeError

/-- The update branch: `for key in after`, defaults `(New)` / `(Delete)`. -/
def updateDiffs (fmt : String) (before after : JValue) : Except PyErr (List String) :=
  match after with
  | .obj afs =>
    pairLoop fmt "[UPDATE]" (.str "(New)") (.str "(Delete)") before after
      (afs.map Prod.fst) []
  | _ => .error .typeError

/-- The replace branch: `sorted(set(before.keys()) | set(after.keys()))`,
defaults `(none)` / `(none)`. -/
def replaceDiffs (fmt : String) (before after : JValue) : Except PyErr (List String) :=
  match before, after with
  | .obj bfs, .obj afs =>
    pairLoop fmt "[REPLACE]" (.str "(none)") (.str "(none)") before after
      (sortStrings ((bfs.map Prod.fst ++ afs.map Prod.fst).dedup)) []
  | _, _ => .error .attributeError

/-- The `if actions == [...]` chain of `summarize_changes` (lines
146-191): the action tag the branch sets, paired with the branch's diff
rows; the final `else` leaves `action = ""` and `diffs = []`. Python's
list `==` is `JValue.beq`. -/
def actionAndDiffs (fmt : String) (actions before after : JValue) :
    String × Except PyErr (List String) :=
  if JValue.beq actions (.arr [.str "create"]) then ("[CREATE]", createDiffs fmt after)
  else if JValue.beq actions (.arr [.str "delete"]) then ("[DELETE]", deleteDiffs fmt before)
  else if JValue.beq actions (.arr [.str "update"]) then ("[UPDATE]", updateDiffs fmt before after)
  else if JValue.beq actions (.arr [.str "delete", .str "create"]) then
    ("[REPLACE]", replaceDiffs fmt before after)
  else ("", .ok [])

/-- The body of the `for change in ...` loop (lines 139-200) for one
entry: field lookups in source order, `or {}` defaulting, the action
chain, then one rendered block — the `NoChanges` block when `diffs` is
empty. -/
def processChange (fmt : String) (entry : JValue) : Except PyErr String :=
  match entry.getItem "change" with
  | .error e => .error e
  | .ok ch =>
  match ch.getItem "actions" with
  | .error e => .error e
  | .ok actions =>
  match entry.getItem "address" with
  | .error e => .error e
  | .ok address =>
  match ch.dictGet "before" (.obj []) with
  | .error e => .error e
  | .ok beforeRaw =>
  match ch.dictGet "after" (.obj []) with
  | .error e => .error e
  | .ok afterRaw =>
  let ad := actionAndDiffs fmt actions (orEmpty beforeRaw) (orEmpty afterRaw)
  match ad.2 with
  | .error e => .error e
  | .ok [] => .ok (gen_resource_changes fmt (pyStr address) "NoChanges" "")
  | .ok diffs =>
    .ok (gen_resource_changes fmt (pyStr address) ad.1 (String.intercalate "\n" diffs))

/-- The whole `for change in ...` loop: one block appended per entry, in
order; the first raised error aborts the run, as in Python. -/
def processList (fmt : String) : List JValue → List String → Except PyErr (List String)
  | [], acc => .ok acc
  | e :: rest, acc =>
    match processChange fmt e with
    | .ok block => processList fmt rest (acc ++ [block])
    | .error err => .error err

/-- `summarize_changes(tfplan_json_file, output_format)` (lines 129-205).
`tfplan_json_file.get("resource_changes", [])` must be iterable; a
non-list value there is modelled as a type error (the claims only
quantify over plans whose `resource_changes` is a list or absent). -/
def summarize_changes (plan : JValue) (fmt : String) : Except PyErr String :=
  match plan.dictGet "resource_changes" (.arr []) with
  | .error e => .error e
  | .ok rcs =>
  match rcs with
  | .arr entries =>
    match processList fmt entries [] with
    | .error e => .error e
    | .ok blocks =>
      let output := if blocks = [] then ["No changes detected in the Terraform plan."] else blocks
      match HEADER fmt, FOOTER fmt with
      | .ok hdr, .ok ftr => .ok (hdr ++ String.intercalate "\n\n" output ++ ftr)
      | .error e, _ => .error e
      | _, .error e => .error e
  | _ => .error .typeError

/-! ## Helper notions and lemmas -/

/-- A resource-change entry with all four fields, in the shape produced
by `terraform show -json`. -/
def mkEntry (addr acts b a : JValue) : JValue :=
  .obj [("address", addr),
        ("change", .obj [("actions", acts), ("before", b), ("after", a)])]

/-- A plan whose `resource_changes` is the given list. -/
def mkPlan (entries : List JValue) : JValue :=
  .obj [("resource_changes", .arr entries)]

/-- The row string `gen_resource_property_changes` produces on the
formats and actions that occur (it only errors off those). -/
def genRowStr (fmt action key : String) (bv av : JValue) : String :=
  (gen_resource_property_changes fmt action key bv av).toOption.getD ""

theorem gen_ok (fmt action key : String) (bv av : JValue)
    (hf : fmt = "html" ∨ fmt = "markdown")
    (ha : action = "[CREATE]" ∨ action = "[DELETE]" ∨ action = "[UPDATE]" ∨ action = "[REPLACE]") :
    gen_resource_property_changes fmt action key bv av =
      .ok (genRowStr fmt action key bv av) := by
  rcases hf with rfl | rfl <;> rcases ha with rfl | rfl | rfl | rfl <;> rfl

theorem createLoop_eq (fmt : String) (hf : fmt = "html" ∨ fmt = "markdown") :
    ∀ (items : List (String × JValue)) (acc : List String),
    createLoop fmt items acc =
      .ok (acc ++ items.map fun kv => genRowStr fmt "[CREATE]" kv.1 (.str "(New)") (normNull kv.2))
  | [], acc => by simp [createLoop]
  | (k, v) :: rest, acc => by
    rw [createLoop, gen_ok fmt "[CREATE]" k (.str "(New)") (normNull v) hf (Or.inl rfl)]
    show createLoop fmt rest _ = _
    rw [createLoop_eq fmt hf rest _]
    simp

theorem deleteLoop_eq (fmt : String) (hf : fmt = "html" ∨ fmt = "markdown") :
    ∀ (items : List (String × JValue)) (acc : List String),
    deleteLoop fmt items acc =
      .ok (acc ++ items.map fun kv => genRowStr fmt "[DELETE]" kv.1 (normNull kv.2) (.str "(Deleted)"))
  | [], acc => by simp [deleteLoop]
  | (k, v) :: rest, acc => by
    rw [deleteLoop, gen_ok fmt "[DELETE]" k (normNull v) (.str "(Deleted)") hf (Or.inr (Or.inl rfl))]
    show deleteLoop fmt rest _ = _
    rw [deleteLoop_eq fmt hf rest _]
    simp

/-- One step of the update/replace loops, as an optional row: look both
values up with the branch's defaults, normalize, keep the row only when
the values differ. -/
def pairRow (fmt action : String) (bdflt adflt : JValue)
    (bfs afs : List (String × JValue)) (key : String) : Option String :=
  if JValue.beq (normNull ((alistLookup bfs key).getD bdflt))
      (normNull ((alistLookup afs key).getD adflt)) then none
  else some (genRowStr fmt action key
    (normNull ((alistLookup bfs key).getD bdflt))
    (normNull ((alistLookup afs key).getD adflt)))

theorem pairLoop_eq (fmt action : String) (bdflt adflt : JValue)
    (bfs afs : List (String × JValue))
    (hf : fmt = "html" ∨ fmt = "markdown")
    (ha : action = "[CREATE]" ∨ action = "[DELETE]" ∨ action = "[UPDATE]" ∨ action = "[REPLACE]") :
    ∀ (keys : List String) (acc : List String),
    pairLoop fmt action bdflt adflt (.obj bfs) (.obj afs) keys acc =
      .ok (acc ++ keys.filterMap (pairRow fmt action bdflt adflt bfs afs))
  | [], acc => by simp [pairLoop]
  | key :: keys, acc => by
    rw [pairLoop]
    simp only [JValue.dictGet]
    by_cases hbeq : JValue.beq (normNull ((alistLookup bfs key).getD bdflt))
        (normNull ((alistLookup afs key).getD adflt)) = true
    · rw [if_pos hbeq, pairLoop_eq fmt action bdflt adflt bfs afs hf ha keys acc]
      simp [List.filterMap_cons, pairRow, hbeq]
    · rw [if_neg hbeq, gen_ok fmt action key _ _ hf ha]
      show pairLoop fmt action bdflt adflt (JValue.obj bfs) (JValue.obj afs) keys _ = _
      rw [pairLoop_eq fmt action bdflt adflt bfs afs hf ha keys _]
      rw [Bool.not_eq_true] at hbeq
      simp [List.filterMap_cons, pairRow, hbeq]

theorem createDiffs_obj (fmt : String) (hf : fmt = "html" ∨ fmt = "markdown")
    (afs : List (String × JValue)) :
    createDiffs fmt (.obj afs) =
      .ok (afs.map fun kv => genRowStr fmt "[CREATE]" kv.1 (.str "(New)") (normNull kv.2)) := by
  show createLoop fmt afs [] = _
  rw [createLoop_eq fmt hf afs []]
  simp

theorem deleteDiffs_obj (fmt : String) (hf : fmt = "html" ∨ fmt = "markdown")
    (bfs : List (String × JValue)) :
    deleteDiffs fmt (.obj bfs) =
      .ok (bfs.map fun kv => genRowStr fmt "[DELETE]" kv.1 (normNull kv.2) (.str "(Deleted)")) := by
  show deleteLoop fmt bfs [] = _
  rw [deleteLoop_eq fmt hf bfs []]
  simp

theorem updateDiffs_obj (fmt : String) (hf : fmt = "html" ∨ fmt = "markdown")
    (bfs afs : List (String × JValue)) :
    updateDiffs fmt (.obj bfs) (.obj afs) =
      .ok ((afs.map Prod.fst).filterMap
        (pairRow fmt "[UPDATE]" (.str "(New)") (.str "(Delete)") bfs afs)) := by
  show pairLoop fmt "[UPDATE]" (.str "(New)") (.str "(Delete)")
    (.obj bfs) (.obj afs) (afs.map Prod.fst) [] = _
  rw [pairLoop_eq fmt "[UPDATE]" (.str "(New)") (.str "(Delete)") bfs afs hf
    (Or.inr (Or.inr (Or.inl rfl))) (afs.map Prod.fst) []]
  simp

theorem replaceDiffs_obj (fmt : String) (hf : fmt = "html" ∨ fmt = "markdown")
    (bfs afs : List (String × JValue)) :
    replaceDiffs fmt (.obj bfs) (.obj afs) =
      .ok ((sortStrings ((bfs.map Prod.fst ++ afs.map Prod.fst).dedup)).filterMap
        (pairRow fmt "[REPLACE]" (.str "(none)") (.str "(none)") bfs afs)) := by
  show pairLoop fmt "[REPLACE]" (.str "(none)") (.str "(none)")
    (.obj bfs) (.obj afs) (sortStrings ((bfs.map Prod.fst ++ afs.map Prod.fst).dedup)) [] = _
  rw [pairLoop_eq fmt "[REPLACE]" (.str "(none)") (.str "(none)") bfs afs hf
    (Or.inr (Or.inr (Or.inr rfl))) (sortStrings ((bfs.map Prod.fst ++ afs.map Prod.fst).dedup)) []]
  simp

theorem processChange_mkEntry (fmt : String) (addr acts b a : JValue) :
    processChange fmt (mkEntry addr acts b a) =
      match (actionAndDiffs fmt acts (orEmpty b) (orEmpty a)).2 with
      | .error e => .error e
      | .ok [] => .ok (gen_resource_changes fmt (pyStr addr) "NoChanges" "")
      | .ok diffs =>
        .ok (gen_resource_changes fmt (pyStr addr)
          (actionAndDiffs fmt acts (orEmpty b) (orEmpty a)).1 (String.intercalate "\n" diffs)) :=
  rfl

theorem processChange_noBeforeAfter (fmt : String) (addr acts : JValue) :
    processChange fmt (.obj [("address", addr), ("change", .obj [("actions", acts)])]) =
      match (actionAndDiffs fmt acts (.obj []) (.obj [])).2 with
      | .error e => .error e
      | .ok [] => .ok (gen_resource_changes fmt (pyStr addr) "NoChanges" "")
      | .ok diffs =>
        .ok (gen_resource_changes fmt (pyStr addr)
          (actionAndDiffs fmt acts (.obj []) (.obj [])).1 (String.intercalate "\n" diffs)) :=
  rfl

theorem processList_append (fmt : String) :
    ∀ (l₁ l₂ : List JValue) (acc : List String),
    processList fmt (l₁ ++ l₂) acc =
      match processList fmt l₁ acc with
      | .ok acc' => processList fmt l₂ acc'
      | .error e => .error e
  | [], l₂, acc => by simp [processList]
  | e :: rest, l₂, acc => by
    simp only [List.cons_append, processList]
    cases processChange fmt e with
    | error err => rfl
    | ok block => exact processList_append fmt rest l₂ (acc ++ [block])

theorem processList_ok_forall (fmt : String) :
    ∀ (l : List JValue) (acc out : List String),
    processList fmt l acc = .ok out →
    ∃ blocks, out = acc ++ blocks ∧
      List.Forall₂ (fun e bl => processChange fmt e = .ok bl) l blocks
  | [], acc, out, h => by
    simp only [processList] at h
    injection h with h
    exact ⟨[], by simp [h], List.Forall₂.nil⟩
  | e :: rest, acc, out, h => by
    simp only [processList] at h
    cases hpc : processChange fmt e with
    | error err => rw [hpc] at h; exact absurd h (by simp)
    | ok block =>
      rw [hpc] at h
      obtain ⟨blocks, hout, hall⟩ := processList_ok_forall fmt rest (acc ++ [block]) out h
      exact ⟨block :: blocks, by simp [hout], List.Forall₂.cons hpc hall⟩

theorem processList_ok_of_forall (fmt : String) :
    ∀ (l : List JValue) (acc : List String),
    (∀ e ∈ l, ∃ s, processChange fmt e = .ok s) →
    ∃ out, processList fmt l acc = .ok out
  | [], acc, _ => ⟨acc, rfl⟩
  | e :: rest, acc, h => by
    obtain ⟨s, hs⟩ := h e (by simp)
    obtain ⟨out, hout⟩ :=
      processList_ok_of_forall fmt rest (acc ++ [s]) (fun x hx => h x (by simp [hx]))
    refine ⟨out, ?_⟩
    rw [processList, hs]
    exact hout

/-- The shapes `before` / `after` may take under the claims: a mapping
or a JSON `null` (absence is handled by the `.get` default). -/
def IsMapOrNull (v : JValue) : Prop := v = .null ∨ ∃ fs, v = .obj fs

/-- A structurally well-formed resource-change entry: `address` present,
a `change` mapping with `actions` present, and `before` / `after` (when
present) each a mapping or null. -/
def WFEntry (e : JValue) : Prop :=
  ∃ efs cfs addr acts,
    e = .obj efs ∧
    alistLookup efs "address" = some addr ∧
    alistLookup efs "change" = some (.obj cfs) ∧
    alistLookup cfs "actions" = some acts ∧
    (∀ v, alistLookup cfs "before" = some v → IsMapOrNull v) ∧
    (∀ v, alistLookup cfs "after" = some v → IsMapOrNull v)

theorem orEmpty_obj_of (o : Option JValue) (h : ∀ v, o = some v → IsMapOrNull v) :
    ∃ fs, orEmpty (o.getD (.obj [])) = .obj fs := by
  cases o with
  | none => exact ⟨[], rfl⟩
  | some v =>
    rcases h v rfl with rfl | ⟨fs, rfl⟩
    · exact ⟨[], rfl⟩
    · by_cases hfs : pyTruthy (.obj fs) = true
      · exact ⟨fs, by simp [orEmpty, hfs]⟩
      · exact ⟨[], by simp [orEmpty, hfs]⟩

theorem actionAndDiffs_ok (fmt : String) (hf : fmt = "html" ∨ fmt = "markdown")
    (acts : JValue) (bfs afs : List (String × JValue)) :
    ∃ l, (actionAndDiffs fmt acts (.obj bfs) (.obj afs)).2 = .ok l := by
  by_cases h1 : JValue.beq acts (.arr [.str "create"]) = true
  · rw [actionAndDiffs, if_pos h1]
    exact ⟨_, createDiffs_obj fmt hf afs⟩
  · by_cases h2 : JValue.beq acts (.arr [.str "delete"]) = true
    · rw [actionAndDiffs, if_neg h1, if_pos h2]
      exact ⟨_, deleteDiffs_obj fmt hf bfs⟩
    · by_cases h3 : JValue.beq acts (.arr [.str "update"]) = true
      · rw [actionAndDiffs, if_neg h1, if_neg h2, if_pos h3]
        exact ⟨_, updateDiffs_obj fmt hf bfs afs⟩
      · by_cases h4 : JValue.beq acts (.arr [.str "delete", .str "create"]) = true
        · rw [actionAndDiffs, if_neg h1, if_neg h2, if_neg h3, if_pos h4]
          exact ⟨_, replaceDiffs_obj fmt hf bfs afs⟩
        · rw [actionAndDiffs, if_neg h1, if_neg h2, if_neg h3, if_neg h4]
          exact ⟨[], rfl⟩

theorem processChange_wf_eq (fmt : String) (efs cfs : List (String × JValue))
    (addr acts : JValue)
    (haddr : alistLookup efs "address" = some addr)
    (hch : alistLookup efs "change" = some (.obj cfs))
    (hacts : alistLookup cfs "actions" = some acts) :
    processChange fmt (.obj efs) =
      match (actionAndDiffs fmt acts
              (orEmpty ((alistLookup cfs "before").getD (.obj [])))
              (orEmpty ((alistLookup cfs "after").getD (.obj [])))).2 with
      | .error e => .error e
      | .ok [] => .ok (gen_resource_changes fmt (pyStr addr) "NoChanges" "")
      | .ok diffs =>
        .ok (gen_resource_changes fmt (pyStr addr)
          (actionAndDiffs fmt acts
            (orEmpty ((alistLookup cfs "before").getD (.obj [])))
            (orEmpty ((alistLookup cfs "after").getD (.obj [])))).1
          (String.intercalate "\n" diffs)) := by
  unfold processChange
  simp only [JValue.getItem, JValue.dictGet, hch, haddr, hacts]

theorem processChange_ok (fmt : String) (hf : fmt = "html" ∨ fmt = "markdown")
    (e : JValue) (hwf : WFEntry e) : ∃ s, processChange fmt e = .ok s := by
  obtain ⟨efs, cfs, addr, acts, rfl, haddr, hch, hacts, hb, ha⟩ := hwf
  obtain ⟨bfs, hbo⟩ := orEmpty_obj_of (alistLookup cfs "before") hb
  obtain ⟨afs, hao⟩ := orEmpty_obj_of (alistLookup cfs "after") ha
  rw [processChange_wf_eq fmt efs cfs addr acts haddr hch hacts, hbo, hao]
  obtain ⟨l, hl⟩ := actionAndDiffs_ok fmt hf acts bfs afs
  rw [hl]
  cases l with
  | nil => exact ⟨_, rfl⟩
  | cons x xs => exact ⟨_, rfl⟩

/-! ## Claims -/

/-- C1: classification of the action list is exact and order-sensitive —
`["create"]` yields the Create kind (tag `[CREATE]`), `["delete"]` yields
Delete, `["update"]` yields Update, `["delete","create"]` yields Replace,
and any other action list (including `["create","delete"]`) is Unknown:
it sets no tag, produces no diff rows, and the resource renders as the
`NoChanges` block with no diff table instead of raising an error. -/
theorem claim_C1 (fmt : String) (addr b a acts : JValue)
    (h1 : JValue.beq acts (.arr [.str "create"]) = false)
    (h2 : JValue.beq acts (.arr [.str "delete"]) = false)
    (h3 : JValue.beq acts (.arr [.str "update"]) = false)
    (h4 : JValue.beq acts (.arr [.str "delete", .str "create"]) = false) :
    (∀ b' a' : JValue,
      (actionAndDiffs fmt (.arr [.str "create"]) b' a').1 = "[CREATE]" ∧
      (actionAndDiffs fmt (.arr [.str "delete"]) b' a').1 = "[DELETE]" ∧
      (actionAndDiffs fmt (.arr [.str "update"]) b' a').1 = "[UPDATE]" ∧
      (actionAndDiffs fmt (.arr [.str "delete", .str "create"]) b' a').1 = "[REPLACE]") ∧
    actionAndDiffs fmt acts b a = ("", Except.ok []) ∧
    processChange fmt (mkEntry addr acts b a) =
      .ok (gen_resource_changes fmt (pyStr addr) "NoChanges" "") := by
  have hunk : ∀ b' a' : JValue, actionAndDiffs fmt acts b' a' = ("", Except.ok []) := by
    intro b' a'
    rw [actionAndDiffs, if_neg (by simp [h1]), if_neg (by simp [h2]),
      if_neg (by simp [h3]), if_neg (by simp [h4])]
  refine ⟨fun b' a' => ⟨rfl, rfl, rfl, rfl⟩, hunk b a, ?_⟩
  rw [processChange_mkEntry, hunk]

/-- Witness for C1 at `actions = ["create","delete"]` (set-equal to
Replace's list, but classified Unknown). -/
theorem claim_C1_witness :
    actionAndDiffs "markdown" (.arr [.str "create", .str "delete"]) .null .null
      = ("", Except.ok []) ∧
    processChange "markdown"
        (mkEntry (.str "aws_s3_bucket.x") (.arr [.str "create", .str "delete"]) .null .null)
      = .ok (gen_resource_changes "markdown" "aws_s3_bucket.x" "NoChanges" "") := by
  have h := claim_C1 "markdown" (.str "aws_s3_bucket.x") .null .null
    (.arr [.str "create", .str "delete"]) rfl rfl rfl rfl
  exact ⟨h.2.1, h.2.2⟩

/-- C7: an absent or null `before`/`after` is replaced by the empty
mapping and diff computation succeeds; in particular a Create, Delete,
Update or Replace resource with both `before` and `after` absent (or
null) yields an empty diff and the `NoChanges` block, not an error, and
any combination of mapping-or-null `before`/`after` values processes
without raising. -/
theorem claim_C7 (fmt : String) (hf : fmt = "html" ∨ fmt = "markdown")
    (addr acts : JValue)
    (hacts : acts = .arr [.str "create"] ∨ acts = .arr [.str "delete"] ∨
      acts = .arr [.str "update"] ∨ acts = .arr [.str "delete", .str "create"]) :
    orEmpty .null = .obj [] ∧
    processChange fmt (.obj [("address", addr), ("change", .obj [("actions", acts)])]) =
      .ok (gen_resource_changes fmt (pyStr addr) "NoChanges" "") ∧
    processChange fmt (mkEntry addr acts .null .null) =
      .ok (gen_resource_changes fmt (pyStr addr) "NoChanges" "") ∧
    (∀ b a : JValue, IsMapOrNull b → IsMapOrNull a →
      ∃ s, processChange fmt (mkEntry addr acts b a) = .ok s) := by
  refine ⟨rfl, ?_, ?_, ?_⟩
  · rcases hacts with rfl | rfl | rfl | rfl <;> rfl
  · rcases hacts with rfl | rfl | rfl | rfl <;> rfl
  · intro b a hmb hma
    refine processChange_ok fmt hf _ ?_
    refine ⟨_, _, addr, acts, rfl, rfl, rfl, rfl, ?_, ?_⟩
    · intro v hv
      injection hv with hv
      exact hv ▸ hmb
    · intro v hv
      injection hv with hv
      exact hv ▸ hma

/-- Witness for C7 at `actions = ["update"]`, markdown. -/
theorem claim_C7_witness :
    processChange "markdown"
        (.obj [("address", .str "r"), ("change", .obj [("actions", .arr [.str "update"])])])
      = .ok (gen_resource_changes "markdown" "r" "NoChanges" "") ∧
    ∃ s, processChange "markdown"
        (mkEntry (.str "r") (.arr [.str "update"]) (.obj [("x", .num 1)]) .null) = .ok s := by
  have h := claim_C7 "markdown" (Or.inr rfl) (.str "r") (.arr [.str "update"])
    (Or.inr (Or.inr (Or.inl rfl)))
  exact ⟨h.2.1, h.2.2.2 (.obj [("x", .num 1)]) .null (Or.inr ⟨_, rfl⟩) (Or.inl rfl)⟩

/-- `pat` occurs as a contiguous substring of `s`. -/
def ContainsSub (s pat : String) : Prop := ∃ l r, s = l ++ pat ++ r

/-- C8: the concrete one-resource update plan, rendered as Markdown,
produces exactly the expected document, which contains the heading line
for `aws_s3_bucket.x` and the `acl` diff row. -/
theorem claim_C8 :
    summarize_changes (.obj [("resource_changes", .arr [
        .obj [("address", .str "aws_s3_bucket.x"),
              ("change", .obj [("actions", .arr [.str "update"]),
                               ("before", .obj [("acl", .str "private")]),
                               ("after", .obj [("acl", .str "public-read")])])]])])
      "markdown"
    = .ok ("## Terraform Plan: List of Resource Changes\n\n### Resource [UPDATE]: `aws_s3_bucket.x`\n\n| Property | Before | After |\n| -------- | ------ | ----- |\n| `acl` | `private` | `public-read` |\n\n") ∧
    ContainsSub
      "## Terraform Plan: List of Resource Changes\n\n### Resource [UPDATE]: `aws_s3_bucket.x`\n\n| Property | Before | After |\n| -------- | ------ | ----- |\n| `acl` | `private` | `public-read` |\n\n"
      "### Resource [UPDATE]: `aws_s3_bucket.x`" ∧
    ContainsSub
      "## Terraform Plan: List of Resource Changes\n\n### Resource [UPDATE]: `aws_s3_bucket.x`\n\n| Property | Before | After |\n| -------- | ------ | ----- |\n| `acl` | `private` | `public-read` |\n\n"
      "| `acl` | `private` | `public-read` |" := by
  refine ⟨rfl,
    ⟨"## Terraform Plan: List of Resource Changes\n\n",
     "\n\n| Property | Before | After |\n| -------- | ------ | ----- |\n| `acl` | `private` | `public-read` |\n\n",
     by decide⟩,
    ⟨"## Terraform Plan: List of Resource Changes\n\n### Resource [UPDATE]: `aws_s3_bucket.x`\n\n| Property | Before | After |\n| -------- | ------ | ----- |\n",
     "\n\n",
     by decide⟩⟩

/-- C5 counterexample: for the empty plan rendered as Markdown the
report is the no-changes sentence wrapped in the Markdown header and
footer — not the bare sentence the claim asserts for Markdown. -/
theorem claim_C5_counterexample :
    summarize_changes (mkPlan []) "markdown" =
      .ok ("## Terraform Plan: List of Resource Changes\n\n" ++
        "No changes detected in the Terraform plan." ++ "\n\n") ∧
    summarize_changes (mkPlan []) "markdown" ≠
      .ok "No changes detected in the Terraform plan." := by
  have h1 : summarize_changes (mkPlan []) "markdown" =
      .ok ("## Terraform Plan: List of Resource Changes\n\n" ++
        "No changes detected in the Terraform plan." ++ "\n\n") := rfl
  refine ⟨h1, fun h => ?_⟩
  rw [h1] at h
  injection h with h
  exact absurd h (by decide)

/-- C5 (amended): a plan with zero resource-change entries yields the
single literal sentence "No changes detected in the Terraform plan."
and no resource blocks, wrapped in the format's header and footer for
BOTH the HTML and the Markdown formats. -/
theorem claim_C5_amended (fmt : String) (hf : fmt = "html" ∨ fmt = "markdown")
    (pfs : List (String × JValue))
    (hrc : alistLookup pfs "resource_changes" = some (.arr []) ∨
      alistLookup pfs "resource_changes" = none) :
    ∃ hdr ftr, HEADER fmt = .ok hdr ∧ FOOTER fmt = .ok ftr ∧
      summarize_changes (.obj pfs) fmt =
        .ok (hdr ++ "No changes detected in the Terraform plan." ++ ftr) := by
  obtain ⟨hdr, hhdr⟩ : ∃ h, HEADER fmt = .ok h := by
    rcases hf with rfl | rfl <;> exact ⟨_, rfl⟩
  obtain ⟨ftr, hftr⟩ : ∃ h, FOOTER fmt = .ok h := by
    rcases hf with rfl | rfl <;> exact ⟨_, rfl⟩
  have hd : JValue.dictGet (.obj pfs) "resource_changes" (.arr []) = .ok (.arr []) := by
    rcases hrc with h | h <;> simp [JValue.dictGet, h]
  refine ⟨hdr, ftr, hhdr, hftr, ?_⟩
  simp only [summarize_changes, hd, processList, hhdr, hftr]
  rfl

/-- Witness for the amended C5 on a concrete empty Markdown plan. -/
theorem claim_C5_amended_witness :
    ∃ hdr ftr, HEADER "markdown" = .ok hdr ∧ FOOTER "markdown" = .ok ftr ∧
      summarize_changes (.obj [("resource_changes", .arr [])]) "markdown" =
        .ok (hdr ++ "No changes detected in the Terraform plan." ++ ftr) :=
  claim_C5_amended "markdown" (Or.inr rfl) [("resource_changes", .arr [])] (Or.inl rfl)

/-- C6 counterexample: the entry at position 0 lacks `address`; the run
fails with Python's `KeyError("address")` — an error naming only the
missing field. The script has no `MalformedPlanError` (no such name
occurs in it) and the raised error carries no entry position. -/
theorem claim_C6_counterexample :
    summarize_changes (mkPlan [.obj [("change", .obj [("actions", .arr [.str "create"]),
        ("after", .obj [("acl", .str "private")])])]]) "markdown"
      = .error (.keyError "address") := rfl

/-- Propagation of a per-entry error through the loop: earlier entries
succeed, the failing entry's error surfaces as the whole run's error. -/
theorem summarize_error_at (fmt : String) (pre post : List JValue) (e : JValue)
    (blocks : List String) (err : PyErr)
    (hpre : processList fmt pre [] = .ok blocks)
    (he : processChange fmt e = .error err) :
    summarize_changes (mkPlan (pre ++ e :: post)) fmt = .error err := by
  have hd : JValue.dictGet (mkPlan (pre ++ e :: post)) "resource_changes" (.arr []) =
      .ok (.arr (pre ++ e :: post)) := rfl
  have hl : processList fmt (pre ++ e :: post) [] = .error err := by
    rw [processList_append fmt pre (e :: post) [], hpre]
    show (match processChange fmt e with
      | .ok block => processList fmt post (blocks ++ [block])
      | .error err => .error err) = .error err
    rw [he]
  simp only [summarize_changes, hd, hl]

/-- C6 (amended): a resource-change entry whose `change` mapping has an
`actions` field but which lacks `address` makes report generation fail
with Python's `KeyError("address")`; an entry whose `change` mapping
lacks `actions` fails with `KeyError("actions")`. The error names only
the missing field — there is no `MalformedPlanError` and no entry
position in it. -/
theorem claim_C6_amended (fmt : String) (efs cfs : List (String × JValue)) (acts : JValue)
    (pre post : List JValue) (blocks : List String)
    (hpre : processList fmt pre [] = .ok blocks)
    (hch : alistLookup efs "change" = some (.obj cfs)) :
    (alistLookup cfs "actions" = some acts → alistLookup efs "address" = none →
      processChange fmt (.obj efs) = .error (.keyError "address") ∧
      summarize_changes (mkPlan (pre ++ .obj efs :: post)) fmt = .error (.keyError "address")) ∧
    (alistLookup cfs "actions" = none →
      processChange fmt (.obj efs) = .error (.keyError "actions") ∧
      summarize_changes (mkPlan (pre ++ .obj efs :: post)) fmt = .error (.keyError "actions")) := by
  constructor
  · intro hacts haddr
    have hpc : processChange fmt (.obj efs) = .error (.keyError "address") := by
      simp only [processChange, JValue.getItem, hch, hacts, haddr]
    exact ⟨hpc, summarize_error_at fmt pre post _ blocks _ hpre hpc⟩
  · intro hacts
    have hpc : processChange fmt (.obj efs) = .error (.keyError "actions") := by
      simp only [processChange, JValue.getItem, hch, hacts]
    exact ⟨hpc, summarize_error_at fmt pre post _ blocks _ hpre hpc⟩

/-- Witness for the amended C6 on concrete malformed entries. -/
theorem claim_C6_amended_witness :
    processChange "markdown" (.obj [("change", .obj [("actions", .arr [.str "create"])])])
      = .error (.keyError "address") ∧
    processChange "markdown" (.obj [("change", .obj [("before", .obj [])])])
      = .error (.keyError "actions") := by
  have h1 := claim_C6_amended "markdown" [("change", .obj [("actions", .arr [.str "create"])])]
    [("actions", .arr [.str "create"])] (.arr [.str "create"]) [] [] [] rfl rfl
  have h2 := claim_C6_amended "markdown" [("change", .obj [("before", .obj [])])]
    [("before", .obj [])] .null [] [] [] rfl rfl
  exact ⟨(h1.1 rfl rfl).1, (h2.2 rfl).1⟩

/-- Spec §4.3, Update (written from the spec's words): iterate the keys
of `after`; before value is `before[key]` if present else the marker
`(New)`, after value is `after[key]` if present else the marker
`(Delete)`; normalize nulls; emit the (key, before, after) triple only
if the two values differ. -/
def updateDiffSpec (bfs afs : List (String × JValue)) : List (String × JValue × JValue) :=
  (afs.map Prod.fst).filterMap fun key =>
    if JValue.beq (normNull ((alistLookup bfs key).getD (.str "(New)")))
        (normNull ((alistLookup afs key).getD (.str "(Delete)"))) then none
    else some (key, normNull ((alistLookup bfs key).getD (.str "(New)")),
      normNull ((alistLookup afs key).getD (.str "(Delete)")))

/-- C2: the Update diff is the spec's description rendered row by row —
it iterates exactly the keys of `after` (every emitted key is a key of
`after`, so keys only in `before` are never visited), uses
`before[key]`-else-`(New)` and `after[key]`-else-`(Delete)` with nulls
normalized to `null`, and emits a row iff the two normalized values
differ; in particular a key present with equal values in both mappings,
or null in both mappings, never produces a row. -/
theorem claim_C2 (fmt : String) (hf : fmt = "html" ∨ fmt = "markdown")
    (bfs afs : List (String × JValue)) :
    updateDiffs fmt (.obj bfs) (.obj afs) =
      .ok ((updateDiffSpec bfs afs).map fun t => genRowStr fmt "[UPDATE]" t.1 t.2.1 t.2.2) ∧
    (∀ t ∈ updateDiffSpec bfs afs, t.1 ∈ afs.map Prod.fst) ∧
    (∀ key v w, alistLookup bfs key = some v → alistLookup afs key = some w →
      (v = w ∨ (v = .null ∧ w = .null)) →
      ∀ t ∈ updateDiffSpec bfs afs, t.1 ≠ key) := by
  refine ⟨?_, ?_, ?_⟩
  · rw [updateDiffs_obj fmt hf bfs afs, updateDiffSpec, List.map_filterMap]
    refine congrArg Except.ok (List.filterMap_congr ?_)
    intro key _
    by_cases hbeq : JValue.beq (normNull ((alistLookup bfs key).getD (.str "(New)")))
        (normNull ((alistLookup afs key).getD (.str "(Delete)"))) = true
    · simp [pairRow, hbeq]
    · simp [pairRow, hbeq]
  · intro t ht
    obtain ⟨key, hkey, hsome⟩ := List.mem_filterMap.mp ht
    by_cases hbeq : JValue.beq (normNull ((alistLookup bfs key).getD (.str "(New)")))
        (normNull ((alistLookup afs key).getD (.str "(Delete)"))) = true
    · rw [if_pos hbeq] at hsome
      exact absurd hsome (by simp)
    · rw [if_neg hbeq] at hsome
      obtain rfl := Option.some.inj hsome
      exact hkey
  · intro key v w hv hw hvw t ht
    obtain ⟨k', hk', hsome⟩ := List.mem_filterMap.mp ht
    by_cases hbeq : JValue.beq (normNull ((alistLookup bfs k').getD (.str "(New)")))
        (normNull ((alistLookup afs k').getD (.str "(Delete)"))) = true
    · rw [if_pos hbeq] at hsome
      exact absurd hsome (by simp)
    · rw [if_neg hbeq] at hsome
      obtain rfl := Option.some.inj hsome
      intro hteq
      simp only at hteq
      subst hteq
      rw [hv, hw] at hbeq
      simp only [Option.getD_some] at hbeq
      rcases hvw with rfl | ⟨rfl, rfl⟩
      · exact hbeq (JValue.beq_refl _)
      · exact hbeq rfl

/-- Witness for C2 on a concrete pair of mappings (one equal key, one
differing key, one key only in `before`). -/
theorem claim_C2_witness :
    updateDiffs "markdown"
        (.obj [("acl", .str "private"), ("zone", .str "z"), ("gone", .num 3)])
        (.obj [("acl", .str "public-read"), ("zone", .str "z")]) =
      .ok ((updateDiffSpec
            [("acl", .str "private"), ("zone", .str "z"), ("gone", .num 3)]
            [("acl", .str "public-read"), ("zone", .str "z")]).map
          fun t => genRowStr "markdown" "[UPDATE]" t.1 t.2.1 t.2.2) ∧
    ∀ t ∈ updateDiffSpec
        [("acl", .str "private"), ("zone", .str "z"), ("gone", .num 3)]
        [("acl", .str "public-read"), ("zone", .str "z")],
      t.1 ≠ "gone" := by
  have h := claim_C2 "markdown" (Or.inr rfl)
    [("acl", .str "private"), ("zone", .str "z"), ("gone", .num 3)]
    [("acl", .str "public-read"), ("zone", .str "z")]
  refine ⟨h.1, fun t ht => ?_⟩
  intro hteq
  have := h.2.1 t ht
  rw [hteq] at this
  exact absurd this (by decide)

/-- The key sequence the Replace branch iterates: the deduplicated
concatenation of both key lists, sorted. -/
def replaceKeys (bfs afs : List (String × JValue)) : List String :=
  sortStrings ((bfs.map Prod.fst ++ afs.map Prod.fst).dedup)

/-- Spec §4.3, Replace (written from the spec's words): visit the union
of the key sets of `before` and `after` in sorted order; both values
default to `(none)` when absent; normalize nulls; emit only differing
pairs. -/
def replaceDiffSpec (bfs afs : List (String × JValue)) : List (String × JValue × JValue) :=
  (replaceKeys bfs afs).filterMap fun key =>
    if JValue.beq (normNull ((alistLookup bfs key).getD (.str "(none)")))
        (normNull ((alistLookup afs key).getD (.str "(none)"))) then none
    else some (key, normNull ((alistLookup bfs key).getD (.str "(none)")),
      normNull ((alistLookup afs key).getD (.str "(none)")))

theorem replaceKeys_sorted (bfs afs : List (String × JValue)) :
    List.Pairwise (· < ·) (replaceKeys bfs afs) := by
  have hs : List.Sorted (· ≤ ·) (replaceKeys bfs afs) :=
    List.sorted_insertionSort (· ≤ ·) _
  have hp : List.Perm (replaceKeys bfs afs) ((bfs.map Prod.fst ++ afs.map Prod.fst).dedup) :=
    List.perm_insertionSort (· ≤ ·) _
  have hn : (replaceKeys bfs afs).Nodup := hp.nodup_iff.mpr (List.nodup_dedup _)
  exact (hs.and hn).imp fun h => lt_of_le_of_ne h.1 h.2

theorem replaceKeys_mem (bfs afs : List (String × JValue)) (k : String) :
    k ∈ replaceKeys bfs afs ↔ k ∈ bfs.map Prod.fst ∨ k ∈ afs.map Prod.fst := by
  rw [replaceKeys, sortStrings, (List.perm_insertionSort (· ≤ ·) _).mem_iff,
    List.mem_dedup, List.mem_append]

/-- C3: the Replace diff visits the union of the key sets of `before`
and `after` in strictly increasing (lexicographic) order — so the visit
order is independent of the mappings' insertion order — and for each
key renders the `(none)`-defaulted, null-normalized pair only when the
two values differ. -/
theorem claim_C3 (fmt : String) (hf : fmt = "html" ∨ fmt = "markdown")
    (bfs afs : List (String × JValue)) :
    replaceDiffs fmt (.obj bfs) (.obj afs) =
      .ok ((replaceDiffSpec bfs afs).map fun t => genRowStr fmt "[REPLACE]" t.1 t.2.1 t.2.2) ∧
    List.Pairwise (· < ·) (replaceKeys bfs afs) ∧
    (∀ k, k ∈ replaceKeys bfs afs ↔ k ∈ bfs.map Prod.fst ∨ k ∈ afs.map Prod.fst) := by
  refine ⟨?_, replaceKeys_sorted bfs afs, replaceKeys_mem bfs afs⟩
  rw [replaceDiffs_obj fmt hf bfs afs, replaceDiffSpec, List.map_filterMap]
  show Except.ok ((replaceKeys bfs afs).filterMap _) = _
  refine congrArg Except.ok (List.filterMap_congr ?_)
  intro key _
  by_cases hbeq : JValue.beq (normNull ((alistLookup bfs key).getD (.str "(none)")))
      (normNull ((alistLookup afs key).getD (.str "(none)"))) = true
  · simp [pairRow, hbeq]
  · simp [pairRow, hbeq]

/-- Witness for C3 on concrete mappings whose insertion order is the
reverse of the sorted key order. -/
theorem claim_C3_witness :
    (replaceDiffs "markdown" (.obj [("b", .str "1"), ("a", .str "2")])
        (.obj [("c", .str "3")]) =
      .ok ((replaceDiffSpec [("b", .str "1"), ("a", .str "2")] [("c", .str "3")]).map
        fun t => genRowStr "markdown" "[REPLACE]" t.1 t.2.1 t.2.2)) ∧
    "c" ∈ replaceKeys [("b", .str "1"), ("a", .str "2")] [("c", .str "3")] ∧
    List.Pairwise (· < ·) (replaceKeys [("b", .str "1"), ("a", .str "2")] [("c", .str "3")]) := by
  have h := claim_C3 "markdown" (Or.inr rfl) [("b", .str "1"), ("a", .str "2")]
    [("c", .str "3")]
  exact ⟨h.1, (h.2.2 "c").mpr (Or.inr (by decide)), h.2.1⟩

theorem alistLookup_isSome_of_mem :
    ∀ (l : List (String × JValue)) (k : String),
    k ∈ l.map Prod.fst → (alistLookup l k).isSome = true
  | [], k, h => by simp at h
  | (k', v) :: rest, k, h => by
    by_cases hk : k' = k
    · simp [alistLookup, hk]
    · have hmem : k ∈ rest.map Prod.fst := by
        simp only [List.map_cons, List.mem_cons] at h
        rcases h with rfl | h
        · exact absurd rfl hk
        · exact h
      simp [alistLookup, hk, alistLookup_isSome_of_mem rest k hmem]

theorem pairLoop_default_irrel (fmt action : String) (bd d₁ d₂ : JValue) (before : JValue)
    (afs : List (String × JValue)) :
    ∀ (keys acc : List String), (∀ k ∈ keys, (alistLookup afs k).isSome = true) →
    pairLoop fmt action bd d₁ before (.obj afs) keys acc =
      pairLoop fmt action bd d₂ before (.obj afs) keys acc
  | [], _, _ => rfl
  | key :: keys, acc, h => by
    obtain ⟨v, hv⟩ := Option.isSome_iff_exists.mp (h key (by simp))
    have h' : ∀ k ∈ keys, (alistLookup afs k).isSome = true :=
      fun k hk => h k (by simp [hk])
    have hd1 : JValue.dictGet (.obj afs) key d₁ = .ok v := by
      simp [JValue.dictGet, hv]
    have hd2 : JValue.dictGet (.obj afs) key d₂ = .ok v := by
      simp [JValue.dictGet, hv]
    rw [pairLoop, pairLoop, hd1, hd2]
    cases JValue.dictGet before key bd with
    | error e => rfl
    | ok bv =>
      by_cases hbeq : JValue.beq (normNull bv) (normNull v) = true
      · simp only [if_pos hbeq]
        exact pairLoop_default_irrel fmt action bd d₁ d₂ before afs keys acc h'
      · simp only [if_neg hbeq]
        cases gen_resource_property_changes fmt action key (normNull bv) (normNull v) with
        | error e => rfl
        | ok row =>
          exact pairLoop_default_irrel fmt action bd d₁ d₂ before afs keys (acc ++ [row]) h'

/-- C10: the `(Delete)` default of the Update branch is unreachable —
the branch iterates the keys of `after`, so `after.get(key, "(Delete)")`
always finds the key (the lookup is `isSome` for every iterated key),
and replacing the `(Delete)` default by any other value `d` leaves the
Update diff unchanged; every emitted after-display is the normalized
stored value. -/
theorem claim_C10 (fmt : String) (d : JValue) (bfs afs : List (String × JValue)) :
    pairLoop fmt "[UPDATE]" (.str "(New)") d (.obj bfs) (.obj afs) (afs.map Prod.fst) []
      = updateDiffs fmt (.obj bfs) (.obj afs) ∧
    ∀ k, k ∈ afs.map Prod.fst → (alistLookup afs k).isSome = true := by
  refine ⟨?_, fun k hk => alistLookup_isSome_of_mem afs k hk⟩
  rw [updateDiffs]
  exact pairLoop_default_irrel fmt "[UPDATE]" (.str "(New)") d (.str "(Delete)") (.obj bfs)
    afs (afs.map Prod.fst) [] (fun k hk => alistLookup_isSome_of_mem afs k hk)

/-- Witness for C10 at a concrete mapping and replacement default. -/
theorem claim_C10_witness :
    pairLoop "markdown" "[UPDATE]" (.str "(New)") (.str "SOME-OTHER-DEFAULT")
        (.obj []) (.obj [("k", .str "v")]) (["k"]) []
      = updateDiffs "markdown" (.obj []) (.obj [("k", .str "v")]) ∧
    (alistLookup [("k", JValue.str "v")] "k").isSome = true := by
  have h := claim_C10 "markdown" (.str "SOME-OTHER-DEFAULT") [] [("k", .str "v")]
  exact ⟨h.1, h.2 "k" (by decide)⟩

/-- C4: every resource change in the plan produces exactly one rendered
block, in the input's order (the block list is pointwise the entries'
rendering and has the same length, and the report is header, the blocks
joined by blank lines, footer); and an entry whose diff list is empty —
for any reason — renders as the `NoChanges` block instead of being
omitted. -/
theorem claim_C4 (fmt : String) (hf : fmt = "html" ∨ fmt = "markdown")
    (entries : List JValue) (blocks : List String)
    (hok : processList fmt entries [] = .ok blocks) :
    (entries ≠ [] → ∃ hdr ftr, HEADER fmt = .ok hdr ∧ FOOTER fmt = .ok ftr ∧
      summarize_changes (mkPlan entries) fmt =
        .ok (hdr ++ String.intercalate "\n\n" blocks ++ ftr)) ∧
    List.Forall₂ (fun e bl => processChange fmt e = .ok bl) entries blocks ∧
    blocks.length = entries.length ∧
    (∀ addr acts b a,
      (actionAndDiffs fmt acts (orEmpty b) (orEmpty a)).2 = .ok [] →
      processChange fmt (mkEntry addr acts b a) =
        .ok (gen_resource_changes fmt (pyStr addr) "NoChanges" "")) := by
  obtain ⟨blocks', hb', hall⟩ := processList_ok_forall fmt entries [] blocks hok
  have hbeq : blocks' = blocks := by simpa using hb'.symm
  rw [hbeq] at hall
  have hlen : blocks.length = entries.length := hall.length_eq.symm
  refine ⟨fun hne => ?_, hall, hlen, ?_⟩
  · have hbne : blocks ≠ [] := by
      intro h0
      exact hne (List.length_eq_zero.mp (by rw [← hlen, h0]; rfl))
    obtain ⟨hdr, hhdr⟩ : ∃ h, HEADER fmt = .ok h := by
      rcases hf with rfl | rfl <;> exact ⟨_, rfl⟩
    obtain ⟨ftr, hftr⟩ : ∃ h, FOOTER fmt = .ok h := by
      rcases hf with rfl | rfl <;> exact ⟨_, rfl⟩
    refine ⟨hdr, ftr, hhdr, hftr, ?_⟩
    have hd : JValue.dictGet (mkPlan entries) "resource_changes" (.arr []) =
        .ok (.arr entries) := rfl
    simp only [summarize_changes, hd, hok, hhdr, hftr, if_neg hbne]
  · intro addr acts b a hdiffs
    rw [processChange_mkEntry, hdiffs]

/-- Witness for C4 on a two-entry plan (one real update, one entry whose
Update diff is empty and renders as the NoChanges block). -/
theorem claim_C4_witness :
    ∃ hdr ftr, HEADER "markdown" = .ok hdr ∧ FOOTER "markdown" = .ok ftr ∧
      summarize_changes (mkPlan
        [mkEntry (.str "r1") (.arr [.str "update"])
           (.obj [("p", .str "x")]) (.obj [("p", .str "y")]),
         mkEntry (.str "r2") (.arr [.str "update"])
           (.obj [("p", .str "x")]) (.obj [("p", .str "x")])]) "markdown" =
      .ok (hdr ++ String.intercalate "\n\n"
        [gen_resource_changes "markdown" "r1" "[UPDATE]" "| `p` | `x` | `y` |",
         gen_resource_changes "markdown" "r2" "NoChanges" ""] ++ ftr) :=
  (claim_C4 "markdown" (Or.inr rfl)
    [mkEntry (.str "r1") (.arr [.str "update"])
       (.obj [("p", .str "x")]) (.obj [("p", .str "y")]),
     mkEntry (.str "r2") (.arr [.str "update"])
       (.obj [("p", .str "x")]) (.obj [("p", .str "x")])]
    [gen_resource_changes "markdown" "r1" "[UPDATE]" "| `p` | `x` | `y` |",
     gen_resource_changes "markdown" "r2" "NoChanges" ""]
    rfl).1 (by simp)

/-- C9: for every plan whose entries are structurally well formed
(`address` present, a `change` mapping with `actions` present, and
`before`/`after` each a mapping, null, or absent), `summarize_changes`
returns a string and never errors, for both output formats and every
`actions` value. -/
theorem claim_C9 (fmt : String) (hf : fmt = "html" ∨ fmt = "markdown")
    (pfs : List (String × JValue)) (entries : List JValue)
    (hrc : alistLookup pfs "resource_changes" = some (.arr entries) ∨
      (alistLookup pfs "resource_changes" = none ∧ entries = []))
    (hwf : ∀ e ∈ entries, WFEntry e) :
    ∃ s, summarize_changes (.obj pfs) fmt = .ok s := by
  have hd : JValue.dictGet (.obj pfs) "resource_changes" (.arr []) = .ok (.arr entries) := by
    rcases hrc with h | ⟨h, rfl⟩ <;> simp [JValue.dictGet, h]
  obtain ⟨out, hout⟩ := processList_ok_of_forall fmt entries []
    (fun e he => processChange_ok fmt hf e (hwf e he))
  obtain ⟨hdr, hhdr⟩ : ∃ h, HEADER fmt = .ok h := by
    rcases hf with rfl | rfl <;> exact ⟨_, rfl⟩
  obtain ⟨ftr, hftr⟩ : ∃ h, FOOTER fmt = .ok h := by
    rcases hf with rfl | rfl <;> exact ⟨_, rfl⟩
  refine ⟨hdr ++ String.intercalate "\n\n"
    (if out = [] then ["No changes detected in the Terraform plan."] else out) ++ ftr, ?_⟩
  simp only [summarize_changes, hd, hout, hhdr, hftr]

/-- Witness for C9: an empty-actions entry and an unrecognized-actions
entry, both well formed, still produce a report. -/
theorem claim_C9_witness :
    ∃ s, summarize_changes (.obj [("resource_changes", .arr
      [mkEntry (.str "r1") (.arr []) .null (.obj [("p", .str "x")]),
       mkEntry (.str "r2") (.str "noop") (.obj []) .null])]) "html" = .ok s := by
  refine claim_C9 "html" (Or.inl rfl) _ _ (Or.inl rfl) ?_
  intro e he
  simp only [List.mem_cons, List.not_mem_nil, or_false] at he
  rcases he with rfl | rfl
  · exact ⟨_, _, _, _, rfl, rfl, rfl, rfl,
      fun v hv => by injection hv with hv; exact hv ▸ Or.inl rfl,
      fun v hv => by injection hv with hv; exact hv ▸ Or.inr ⟨_, rfl⟩⟩
  · exact ⟨_, _, _, _, rfl, rfl, rfl, rfl,
      fun v hv => by injection hv with hv; exact hv ▸ Or.inr ⟨_, rfl⟩,
      fun v hv => by injection hv with hv; exact hv ▸ Or.inl rfl⟩

end TfPlan
